import Mathlib

/-!
Shallow embedding of the grid-layout / connector-router program
(`src/main.py`, with the alternative router of `src/main1.py`).

Conventions of the embedding:
* Python integers are modelled as `Int`.
* `range(a, b)` is modelled by `pyRange a b` (the list `a, a+1, …, b-1`).
* A Python `dict` keyed by coordinate pairs is modelled as the lookup
  function `Int × Int → Option String`; writing `d[k] = v` is `dinsert`,
  whose later writes win on lookup, exactly as in a `dict`.
* `DataGrid` mirrors the dataclass: `start_row`, `start_col`, and the
  `children` list.  `end_row`/`end_col` are the derived properties
  (fixed 2-row, 3-column extent).  The `parent` back-reference is not
  stored; functions that read `self.parent` take the parent explicitly.
* `GridFactory.create_child` mutates `parent.children`; the embedding
  returns the created child together with the updated parent.
* The stack in `ExcelGenerator.generate` is a Python list whose top is
  the last element (`pop()` / `extend(reversed(children))`); it is
  modelled head-as-top: popping is taking the head, and
  `extend(reversed(cs))` corresponds to prepending `cs` in order.
-/

/-- Helper for `pyRange`: the `n` consecutive integers starting at `a`. -/
def pyRangeAux (a : Int) : Nat → List Int
  | 0 => []
  | n + 1 => a :: pyRangeAux (a + 1) n

/-- Python `range(a, b)` over `Int`: the list `a, a+1, …, b-1`. -/
def pyRange (a b : Int) : List Int :=
  pyRangeAux a (b - a).toNat

/-- A Python dict keyed by `(row, col)` with string values, modelled by
its lookup function. -/
def PathMap : Type := Int × Int → Option String

/-- `d[k] = v` on a Python dict: the later write wins on lookup. -/
def dinsert (d : PathMap) (k : Int × Int) (v : String) : PathMap :=
  fun q => if q = k then some v else d q

/-- A loop `for k in ks: d[k] = g k` writing one entry per generated key. -/
def dinsertMany (ks : List (Int × Int)) (g : Int × Int → String) (d : PathMap) : PathMap :=
  ks.foldl (fun d k => dinsert d k (g k)) d

/-- The `DataGrid` dataclass of `src/main.py`: origin plus the ordered
children list (`parent` is passed explicitly where needed). -/
inductive DataGrid : Type where
  | mk (start_row : Int) (start_col : Int) (children : List DataGrid)

/-- Field accessor for `start_row`. -/
def DataGrid.start_row : DataGrid → Int
  | .mk r _ _ => r

/-- Field accessor for `start_col`. -/
def DataGrid.start_col : DataGrid → Int
  | .mk _ c _ => c

/-- Field accessor for `children`. -/
def DataGrid.children : DataGrid → List DataGrid
  | .mk _ _ cs => cs

/-- `DataGrid.end_row` property: `start_row + 1` (fixed 2 rows). -/
def DataGrid.end_row (g : DataGrid) : Int :=
  g.start_row + 1

/-- `DataGrid.end_col` property: `start_col + 2` (fixed 3 columns). -/
def DataGrid.end_col (g : DataGrid) : Int :=
  g.start_col + 2

/-- First loop of `_calculate_connection_path`: if
`self.start_col > self.parent.end_col`, write `'horizontal'` at
`(parent.start_row, col)` for `col in range(parent.end_col, self.start_col + 1)`. -/
def horizontal_step (parent child : DataGrid) (path : PathMap) : PathMap :=
  if child.start_col > parent.end_col then
    dinsertMany
      ((pyRange parent.end_col (child.start_col + 1)).map (fun col => (parent.start_row, col)))
      (fun _ => "horizontal") path
  else path

/-- Second loop of `_calculate_connection_path`: if
`self.start_row > self.parent.end_row`, write `'vertical'` at
`(row, self.start_col - 1)` for `row in range(parent.end_row, self.start_row + 1)`. -/
def vertical_step (parent child : DataGrid) (path : PathMap) : PathMap :=
  if child.start_row > parent.end_row then
    dinsertMany
      ((pyRange parent.end_row (child.start_row + 1)).map (fun row => (row, child.start_col - 1)))
      (fun _ => "vertical") path
  else path

/-- Final block of `_calculate_connection_path`: if
`self.start_row > self.parent.end_row` and `(self.start_row, self.start_col - 1)`
is already in the dict, retag it `'corner'`. -/
def corner_step (parent child : DataGrid) (path : PathMap) : PathMap :=
  if child.start_row > parent.end_row then
    if (path (child.start_row, child.start_col - 1)).isSome then
      dinsert path (child.start_row, child.start_col - 1) "corner"
    else path
  else path

/-- `DataGrid._calculate_connection_path` of `src/main.py`, for a node
`child` whose `parent` field is the given `parent` (for the root the
method returns `{}` without running these steps). -/
def calculate_connection_path (parent child : DataGrid) : PathMap :=
  corner_step parent child (vertical_step parent child (horizontal_step parent child (fun _ => none)))

/-- `DataGrid._generate_cells` of `src/main.py`: the dict mapping every
in-rectangle coordinate `(r, c)` to the string `f"{r}-{c}"`. -/
def generate_cells (g : DataGrid) : PathMap :=
  dinsertMany
    ((pyRange g.start_row (g.end_row + 1)).flatMap
      (fun r => (pyRange g.start_col (g.end_col + 1)).map (fun c => (r, c))))
    (fun rc => toString rc.1 ++ "-" ++ toString rc.2)
    (fun _ => none)

/-- `DataGrid.get_cell_data`: dict lookup with default `""`. -/
def get_cell_data (g : DataGrid) (row col : Int) : String :=
  (generate_cells g (row, col)).getD ""

/-- `GridFactory.create_child` of `src/main.py`.  Returns the created
child and the parent with the child appended to its `children` list
(the Python code mutates `parent.children` in place). -/
def create_child (parent : DataGrid) (horizontal : Bool) : DataGrid × DataGrid :=
  let sr : Int := if horizontal then parent.start_row else parent.end_row + 3
  let sc : Int := parent.end_col + 4
  let child := DataGrid.mk sr sc []
  (child, DataGrid.mk parent.start_row parent.start_col (parent.children ++ [child]))

/-- Axis-aligned rectangle intersection of two grids (both have the
fixed 2×3 extent); used to exhibit that `create_child` records
overlapping siblings. -/
def rects_overlap (a b : DataGrid) : Prop :=
  a.start_row ≤ b.end_row ∧ b.start_row ≤ a.end_row ∧
  a.start_col ≤ b.end_col ∧ b.start_col ≤ a.end_col

mutual
/-- Number of nodes of a grid tree. -/
def sizeG : DataGrid → Nat
  | .mk _ _ cs => 1 + sizeGs cs
/-- Number of nodes of a forest. -/
def sizeGs : List DataGrid → Nat
  | [] => 0
  | t :: ts => sizeG t + sizeGs ts
end

/-- The explicit stack loop of `ExcelGenerator.generate` in `src/main.py`
(and `ExcelRenderer.generate` in `src/main1.py`): pop a node, emit it,
push its children in reversed order.  The stack is modelled head-as-top,
so `pop()` is the head and `extend(reversed(cs))` prepends `cs`. -/
def stackWalk : List DataGrid → List DataGrid
  | [] => []
  | t :: rest => t :: stackWalk (t.children ++ rest)
termination_by l => sizeGs l
decreasing_by
  have happ : ∀ (a b : List DataGrid), sizeGs (a ++ b) = sizeGs a + sizeGs b := by
    intro a b
    induction a with
    | nil => simp [sizeGs]
    | cons x xs ih => simp [sizeGs, ih]; omega
  cases t with
  | mk r c cs =>
    simp [DataGrid.children, happ, sizeGs, sizeG]

mutual
/-- Modelled from the spec: recursive pre-order traversal — the root
first, then each child's subtree in insertion order. -/
def preOrder : DataGrid → List DataGrid
  | .mk r c cs => DataGrid.mk r c cs :: preOrderList cs
/-- Modelled from the spec: pre-order of a forest, left to right. -/
def preOrderList : List DataGrid → List DataGrid
  | [] => []
  | t :: ts => preOrder t ++ preOrderList ts
end

/-- The `range` property of `DataGrid` in `src/main1.py`:
`((start_row, start_row + 1), (start_col, start_col + 2))`. -/
def range1 (g : DataGrid) : (Int × Int) × (Int × Int) :=
  ((g.start_row, g.start_row + 1), (g.start_col, g.start_col + 2))

/-- `DataGrid.connection_path` of `src/main1.py` for a node `child` with
the given `parent`: horizontal cells for `col in range(p_col2 + 1, c_col1 + 1)`
at row `p_row1`, then vertical cells for `row in range(p_row2, c_row1)`
at column `c_col1 - 1`, appended as a list. -/
def connection_path1 (parent child : DataGrid) : List (Int × Int) :=
  (if (range1 parent).2.2 < (range1 child).2.1 then
    (pyRange ((range1 parent).2.2 + 1) ((range1 child).2.1 + 1)).map
      (fun col => ((range1 parent).1.1, col))
  else []) ++
  (if (range1 parent).1.2 < (range1 child).1.1 then
    (pyRange ((range1 parent).1.2) ((range1 child).1.1)).map
      (fun row => (row, (range1 child).2.1 - 1))
  else [])

/-- Golden sample of `GridFactory.create_sample_grids`: the root grid at
`(1, 1)` (children not yet attached). -/
def sample_root : DataGrid := DataGrid.mk 1 1 []

/-- First sample child, created with `horizontal=True`. -/
def sample_child1 : DataGrid := (create_child sample_root true).1

/-- The sample root after the first `create_child` call. -/
def sample_root_a : DataGrid := (create_child sample_root true).2

/-- Second sample child, created with `horizontal=False`. -/
def sample_child2 : DataGrid := (create_child sample_root_a false).1

/-- Sample grandchild of `sample_child1`, created with `horizontal=True`. -/
def sample_grandchild : DataGrid := (create_child sample_child1 true).1

/-- Parent grid used to exhibit overlapping siblings. -/
def twin_parent0 : DataGrid := DataGrid.mk 1 1 []

/-- First child of `twin_parent0`, horizontal orientation. -/
def twin_child1 : DataGrid := (create_child twin_parent0 true).1

/-- `twin_parent0` after the first child creation. -/
def twin_parent1 : DataGrid := (create_child twin_parent0 true).2

/-- Second child created on the same parent with the same orientation:
its rectangle coincides with the first child's. -/
def twin_child2 : DataGrid := (create_child twin_parent1 true).1

/-- The parent after both creations. -/
def twin_parent2 : DataGrid := (create_child twin_parent1 true).2

/-- Membership in `pyRangeAux` is the half-open interval of length `n`. -/
lemma mem_pyRangeAux : ∀ (n : Nat) (a x : Int), x ∈ pyRangeAux a n ↔ a ≤ x ∧ x < a + n
  | 0, a, x => by
    simp only [pyRangeAux, List.not_mem_nil, false_iff, not_and, not_lt]
    omega
  | n + 1, a, x => by
    simp [pyRangeAux, mem_pyRangeAux n (a + 1) x]
    omega

/-- Membership in `pyRange` is the half-open interval. -/
lemma mem_pyRange {a b x : Int} : x ∈ pyRange a b ↔ a ≤ x ∧ x < b := by
  rw [pyRange, mem_pyRangeAux]
  omega

/-- Lookup after a key-indexed bulk insert: a generated key reads back
its value, other keys fall through to the original dict. -/
lemma dinsertMany_eval (ks : List (Int × Int)) (g : Int × Int → String) (d : PathMap)
    (q : Int × Int) :
    dinsertMany ks g d q = if q ∈ ks then some (g q) else d q := by
  induction ks generalizing d with
  | nil => simp [dinsertMany]
  | cons k ks ih =>
    show dinsertMany ks g (dinsert d k (g k)) q = _
    rw [ih]
    by_cases hq : q ∈ ks
    · simp [hq]
    · by_cases hqk : q = k
      · subst hqk
        simp [hq, dinsert]
      · simp [hq, hqk, dinsert]

/-- Pointwise effect of the horizontal loop on the dict. -/
lemma horizontal_step_eval (p ch : DataGrid) (d : PathMap) (r c : Int) :
    horizontal_step p ch d (r, c) =
      if ch.start_col > p.end_col ∧ r = p.start_row ∧ p.end_col ≤ c ∧ c ≤ ch.start_col
      then some "horizontal" else d (r, c) := by
  unfold horizontal_step
  by_cases hH : ch.start_col > p.end_col
  · rw [if_pos hH, dinsertMany_eval]
    have hmem : ((r, c) ∈ (pyRange p.end_col (ch.start_col + 1)).map
        (fun col => (p.start_row, col))) ↔
        (r = p.start_row ∧ p.end_col ≤ c ∧ c ≤ ch.start_col) := by
      simp only [List.mem_map, mem_pyRange, Prod.mk.injEq]
      constructor
      · rintro ⟨col, ⟨h1, h2⟩, h3, h4⟩
        omega
      · rintro ⟨h1, h2, h3⟩
        exact ⟨c, by omega, by omega⟩
    by_cases hin : r = p.start_row ∧ p.end_col ≤ c ∧ c ≤ ch.start_col
    · rw [if_pos (hmem.mpr hin), if_pos ⟨hH, hin⟩]
    · rw [if_neg (fun h => hin (hmem.mp h)), if_neg (fun h => hin h.2)]
  · rw [if_neg hH, if_neg (fun h => hH h.1)]

/-- Pointwise effect of the vertical loop on the dict. -/
lemma vertical_step_eval (p ch : DataGrid) (d : PathMap) (r c : Int) :
    vertical_step p ch d (r, c) =
      if ch.start_row > p.end_row ∧ c = ch.start_col - 1 ∧ p.end_row ≤ r ∧ r ≤ ch.start_row
      then some "vertical" else d (r, c) := by
  unfold vertical_step
  by_cases hV : ch.start_row > p.end_row
  · rw [if_pos hV, dinsertMany_eval]
    have hmem : ((r, c) ∈ (pyRange p.end_row (ch.start_row + 1)).map
        (fun row => (row, ch.start_col - 1))) ↔
        (c = ch.start_col - 1 ∧ p.end_row ≤ r ∧ r ≤ ch.start_row) := by
      simp only [List.mem_map, mem_pyRange, Prod.mk.injEq]
      constructor
      · rintro ⟨row, ⟨h1, h2⟩, h3, h4⟩
        omega
      · rintro ⟨h1, h2, h3⟩
        exact ⟨r, by omega, by omega⟩
    by_cases hin : c = ch.start_col - 1 ∧ p.end_row ≤ r ∧ r ≤ ch.start_row
    · rw [if_pos (hmem.mpr hin), if_pos ⟨hV, hin⟩]
    · rw [if_neg (fun h => hin (hmem.mp h)), if_neg (fun h => hin h.2)]
  · rw [if_neg hV, if_neg (fun h => hV h.1)]

/-- Pointwise effect of the corner retag, given that the key it tests is
present whenever the vertical condition holds. -/
lemma corner_step_eval (p ch : DataGrid) (d : PathMap) (r c : Int)
    (hd : ch.start_row > p.end_row → (d (ch.start_row, ch.start_col - 1)).isSome) :
    corner_step p ch d (r, c) =
      if ch.start_row > p.end_row ∧ r = ch.start_row ∧ c = ch.start_col - 1
      then some "corner" else d (r, c) := by
  unfold corner_step
  by_cases hV : ch.start_row > p.end_row
  · rw [if_pos hV, if_pos (hd hV)]
    show dinsert d (ch.start_row, ch.start_col - 1) "corner" (r, c) = _
    unfold dinsert
    by_cases hk : (r, c) = (ch.start_row, ch.start_col - 1)
    · rw [if_pos hk, if_pos ⟨hV, congrArg Prod.fst hk, congrArg Prod.snd hk⟩]
    · rw [if_neg hk, if_neg (fun h => hk (Prod.ext h.2.1 h.2.2))]
  · rw [if_neg hV, if_neg (fun h => hV h.1)]

/-- Full pointwise characterization of `_calculate_connection_path`:
corner at the vertical run's last cell, the rest of the vertical lane
tagged vertical, the horizontal run tagged horizontal, nothing else. -/
lemma connection_path_eval (p ch : DataGrid) (r c : Int) :
    calculate_connection_path p ch (r, c) =
      if ch.start_row > p.end_row ∧ r = ch.start_row ∧ c = ch.start_col - 1
      then some "corner"
      else if ch.start_row > p.end_row ∧ c = ch.start_col - 1 ∧ p.end_row ≤ r ∧ r ≤ ch.start_row
      then some "vertical"
      else if ch.start_col > p.end_col ∧ r = p.start_row ∧ p.end_col ≤ c ∧ c ≤ ch.start_col
      then some "horizontal"
      else none := by
  unfold calculate_connection_path
  rw [corner_step_eval p ch _ r c (by
    intro hV
    rw [vertical_step_eval]
    rw [if_pos ⟨hV, rfl, by omega, by omega⟩]
    rfl)]
  rw [vertical_step_eval, horizontal_step_eval]

/-- Pointwise characterization of the `_generate_cells` dict. -/
lemma generate_cells_eval (g : DataGrid) (r c : Int) :
    generate_cells g (r, c) =
      if g.start_row ≤ r ∧ r ≤ g.end_row ∧ g.start_col ≤ c ∧ c ≤ g.end_col
      then some (toString r ++ "-" ++ toString c) else none := by
  unfold generate_cells
  rw [dinsertMany_eval]
  have hmem : ((r, c) ∈ (pyRange g.start_row (g.end_row + 1)).flatMap
      (fun row => (pyRange g.start_col (g.end_col + 1)).map (fun col => (row, col)))) ↔
      (g.start_row ≤ r ∧ r ≤ g.end_row ∧ g.start_col ≤ c ∧ c ≤ g.end_col) := by
    simp only [List.mem_flatMap, List.mem_map, mem_pyRange, Prod.mk.injEq]
    constructor
    · rintro ⟨row, ⟨h1, h2⟩, col, ⟨h3, h4⟩, h5, h6⟩
      omega
    · rintro ⟨h1, h2, h3, h4⟩
      exact ⟨r, ⟨by omega, by omega⟩, c, ⟨by omega, by omega⟩, rfl, rfl⟩
  by_cases hin : g.start_row ≤ r ∧ r ≤ g.end_row ∧ g.start_col ≤ c ∧ c ≤ g.end_col
  · rw [if_pos (hmem.mpr hin), if_pos hin]
  · rw [if_neg (fun h => hin (hmem.mp h)), if_neg hin]

/-- Node counting distributes over forest concatenation. -/
lemma sizeGs_append (a b : List DataGrid) : sizeGs (a ++ b) = sizeGs a + sizeGs b := by
  induction a with
  | nil => simp [sizeGs]
  | cons x xs ih =>
    show sizeG x + sizeGs (xs ++ b) = sizeG x + sizeGs xs + sizeGs b
    rw [ih]
    omega

/-- Every tree has at least one node. -/
lemma sizeG_pos (t : DataGrid) : 1 ≤ sizeG t := by
  cases t with
  | mk r c cs =>
    rw [sizeG]
    omega

/-- Pre-order of a forest distributes over concatenation. -/
lemma preOrderList_append (a b : List DataGrid) :
    preOrderList (a ++ b) = preOrderList a ++ preOrderList b := by
  induction a with
  | nil => simp [preOrderList]
  | cons x xs ih =>
    show preOrder x ++ preOrderList (xs ++ b) = (preOrder x ++ preOrderList xs) ++ preOrderList b
    rw [ih, List.append_assoc]

/-- The stack walk of a forest emits its pre-order, by induction on the
total node count. -/
lemma stackWalk_eq_aux : ∀ (n : Nat) (l : List DataGrid), sizeGs l ≤ n →
    stackWalk l = preOrderList l := by
  intro n
  induction n with
  | zero =>
    intro l hl
    cases l with
    | nil =>
      rw [stackWalk]
      rfl
    | cons t rest =>
      exfalso
      have ht := sizeG_pos t
      rw [sizeGs] at hl
      omega
  | succ n ih =>
    intro l hl
    cases l with
    | nil =>
      rw [stackWalk]
      rfl
    | cons t rest =>
      cases t with
      | mk r c cs =>
        rw [stackWalk]
        rw [ih (DataGrid.children (DataGrid.mk r c cs) ++ rest) (by
          rw [DataGrid.children, sizeGs_append]
          rw [sizeGs, sizeG] at hl
          omega)]
        rw [DataGrid.children, preOrderList_append]
        show _ = preOrderList (DataGrid.mk r c cs :: rest)
        rw [preOrderList, preOrder]
        rfl

/-- Pre-order of a forest visits exactly its node count, by induction on
the total node count. -/
lemma preOrderList_length_aux : ∀ (n : Nat) (l : List DataGrid), sizeGs l ≤ n →
    (preOrderList l).length = sizeGs l := by
  intro n
  induction n with
  | zero =>
    intro l hl
    cases l with
    | nil => rfl
    | cons t rest =>
      exfalso
      have ht := sizeG_pos t
      rw [sizeGs] at hl
      omega
  | succ n ih =>
    intro l hl
    cases l with
    | nil => rfl
    | cons t rest =>
      cases t with
      | mk r c cs =>
        rw [preOrderList, preOrder, List.length_append, List.length_cons]
        rw [sizeGs, sizeG] at hl ⊢
        rw [ih cs (by omega), ih rest (by omega)]
        omega

/-- C1: for a directly-connected parent/child pair, the connector path
contains exactly the horizontal run (row `parent.start_row`, columns
`parent.end_col … child.start_col`, tagged horizontal, when
`child.start_col > parent.end_col`), the vertical run (column
`child.start_col - 1`, rows `parent.end_row … child.start_row`, tagged
vertical, when `child.start_row > parent.end_row`, the last cell
retagged corner), and no other coordinate. -/
theorem connection_path_exact_cells (p ch : DataGrid) (r c : Int) :
    calculate_connection_path p ch (r, c) =
      if ch.start_row > p.end_row ∧ r = ch.start_row ∧ c = ch.start_col - 1
      then some "corner"
      else if ch.start_row > p.end_row ∧ c = ch.start_col - 1 ∧ p.end_row ≤ r ∧ r ≤ ch.start_row
      then some "vertical"
      else if ch.start_col > p.end_col ∧ r = p.start_row ∧ p.end_col ≤ c ∧ c ≤ ch.start_col
      then some "horizontal"
      else none :=
  connection_path_eval p ch r c

/-- C2 counterexample: a pure-vertical connector (vertical condition
holds, horizontal condition fails) does contain a corner cell, contrary
to the claim that a corner requires both runs. -/
theorem pure_vertical_corner_cex :
    calculate_connection_path (DataGrid.mk 1 1 []) (DataGrid.mk 5 1 []) (5, 0) = some "corner" ∧
    ¬ ((DataGrid.mk 5 1 []).start_col > (DataGrid.mk 1 1 []).end_col) ∧
    ((DataGrid.mk 5 1 []).start_row > (DataGrid.mk 1 1 []).end_row) := by
  decide

/-- C2 amended: the connector path contains exactly one corner cell —
at `(child.start_row, child.start_col - 1)` — iff a vertical run was
emitted (`child.start_row > parent.end_row`), regardless of the
horizontal run, and zero corner cells otherwise. -/
theorem connection_path_corner_iff_vertical_run (p ch : DataGrid) (r c : Int) :
    calculate_connection_path p ch (r, c) = some "corner" ↔
      (ch.start_row > p.end_row ∧ r = ch.start_row ∧ c = ch.start_col - 1) := by
  rw [connection_path_eval]
  split_ifs with h1 h2 h3
  · simp [h1]
  · simp only [Option.some.injEq]
    constructor
    · intro hs
      exact absurd hs (by decide)
    · intro hc
      exact absurd hc h1
  · simp only [Option.some.injEq]
    constructor
    · intro hs
      exact absurd hs (by decide)
    · intro hc
      exact absurd hc h1
  · simp only [reduceCtorEq, false_iff]
    exact h1

/-- C3: whenever a vertical run is emitted, the last cell of the
vertical lane, `(child.start_row, child.start_col - 1)`, is present and
tagged corner in the final mapping. -/
theorem vertical_last_cell_corner (p ch : DataGrid) (h : ch.start_row > p.end_row) :
    calculate_connection_path p ch (ch.start_row, ch.start_col - 1) = some "corner" := by
  rw [connection_path_eval]
  rw [if_pos ⟨h, rfl, rfl⟩]

/-- Witness for C3 at the golden sample's root-to-vertical-child edge. -/
theorem vertical_last_cell_corner_witness :
    (DataGrid.mk 5 7 []).start_row > (DataGrid.mk 1 1 []).end_row ∧
    calculate_connection_path (DataGrid.mk 1 1 []) (DataGrid.mk 5 7 [])
      ((DataGrid.mk 5 7 []).start_row, (DataGrid.mk 5 7 []).start_col - 1) = some "corner" :=
  ⟨by decide, vertical_last_cell_corner (DataGrid.mk 1 1 []) (DataGrid.mk 5 7 []) (by decide)⟩

/-- C4: `create_child` places a horizontal child at
`(parent.start_row, parent.end_col + 4)` and a vertical child at
`(parent.end_row + 3, parent.end_col + 4)` (vertical children shift
right too), and appends the new node as the last element of
`parent.children`. -/
theorem create_child_placement (parent : DataGrid) (horizontal : Bool) :
    (create_child parent horizontal).1.start_row =
      (if horizontal then parent.start_row else parent.end_row + 3) ∧
    (create_child parent horizontal).1.start_col = parent.end_col + 4 ∧
    (create_child parent horizontal).2.children =
      parent.children ++ [(create_child parent horizontal).1] := by
  cases horizontal <;>
    exact ⟨rfl, rfl, rfl⟩

/-- C5 counterexample: in the golden sample the horizontal-child path
also contains `(1, 3)` (the claim said it starts at column 4), and the
root-to-vertical-child path does contain a horizontal run (the claim
said it has none). -/
theorem golden_sample_cex :
    calculate_connection_path sample_root sample_child1 (1, 3) = some "horizontal" ∧
    calculate_connection_path sample_root_a sample_child2 (1, 4) = some "horizontal" := by
  decide

/-- C5 amended: in the golden sample tree (root `(1,1)`, horizontal
child `(1,7)`, vertical child `(5,7)`, grandchild `(1,13)`),
`root.end_col = 3`; the root-to-horizontal-child path is exactly the
cells `(1, 3)` through `(1, 7)`, all horizontal, with no corner; and the
root-to-vertical-child path consists of the horizontal run `(1, 3)`
through `(1, 7)`, the vertical cells `(2, 6)`, `(3, 6)`, `(4, 6)`, and
the corner `(5, 6)`. -/
theorem golden_sample_paths (r c : Int) :
    sample_root.end_col = 3 ∧
    sample_child1.start_row = 1 ∧ sample_child1.start_col = 7 ∧
    sample_child2.start_row = 5 ∧ sample_child2.start_col = 7 ∧
    sample_grandchild.start_row = 1 ∧ sample_grandchild.start_col = 13 ∧
    (calculate_connection_path sample_root sample_child1 (r, c) =
      if r = 1 ∧ 3 ≤ c ∧ c ≤ 7 then some "horizontal" else none) ∧
    (calculate_connection_path sample_root_a sample_child2 (r, c) =
      if r = 5 ∧ c = 6 then some "corner"
      else if c = 6 ∧ 2 ≤ r ∧ r ≤ 5 then some "vertical"
      else if r = 1 ∧ 3 ≤ c ∧ c ≤ 7 then some "horizontal"
      else none) := by
  refine ⟨rfl, rfl, rfl, rfl, rfl, rfl, rfl, ?_, ?_⟩
  · rw [show sample_child1 = DataGrid.mk 1 7 [] from rfl]
    rw [connection_path_eval]
    simp only [sample_root, DataGrid.start_row, DataGrid.start_col, DataGrid.end_row,
      DataGrid.end_col]
    norm_num
  · rw [show sample_child2 = DataGrid.mk 5 7 [] from rfl]
    rw [connection_path_eval]
    simp only [sample_root_a, sample_root, create_child, DataGrid.start_row, DataGrid.start_col,
      DataGrid.end_row, DataGrid.end_col]
    norm_num

/-- C6 counterexample: creating two horizontal children on the same
parent yields two siblings with identical (hence overlapping)
rectangles, yet no failure occurs — both nodes are recorded in
`parent.children`. -/
theorem sibling_overlap_recorded_cex :
    rects_overlap twin_child2 twin_child1 ∧
    twin_child2.start_row = twin_child1.start_row ∧
    twin_child2.start_col = twin_child1.start_col ∧
    twin_parent2.children = [twin_child1, twin_child2] := by
  refine ⟨?_, rfl, rfl, rfl⟩
  unfold rects_overlap
  decide

/-- C6 amended: `create_child` performs no geometry validation and
cannot fail: it always creates the child at the computed origin and
appends it to `parent.children`, even when the new rectangle overlaps an
existing sibling's. -/
theorem create_child_always_records (parent : DataGrid) (horizontal : Bool) :
    (create_child parent horizontal).2.children =
      parent.children ++ [(create_child parent horizontal).1] := by
  cases horizontal <;> rfl

/-- C7: the connector path is empty exactly when neither the horizontal
condition (`child.start_col > parent.end_col`) nor the vertical
condition (`child.start_row > parent.end_row`) holds. -/
theorem connection_path_empty_iff_no_offset (p ch : DataGrid) :
    (∀ r c : Int, calculate_connection_path p ch (r, c) = none) ↔
      (¬ ch.start_col > p.end_col ∧ ¬ ch.start_row > p.end_row) := by
  constructor
  · intro h
    constructor
    · intro hH
      have hcell := h p.start_row ch.start_col
      rw [connection_path_eval] at hcell
      split_ifs at hcell with h1 h2 h3
      exact h3 ⟨hH, rfl, by omega, by omega⟩
    · intro hV
      have hcell := h ch.start_row (ch.start_col - 1)
      rw [connection_path_eval] at hcell
      split_ifs at hcell with h1 h2 h3
      exact h1 ⟨hV, rfl, rfl⟩
  · rintro ⟨hH, hV⟩ r c
    rw [connection_path_eval]
    rw [if_neg (fun h => hV h.1), if_neg (fun h => hV h.1), if_neg (fun h => hH h.1)]

/-- C8: the explicit stack-based walk of `generate` (pop, visit, push
children reversed) emits exactly the recursive pre-order sequence of the
tree, visiting each of the tree's `sizeG t` nodes exactly once. -/
theorem stack_walk_matches_preorder (t : DataGrid) :
    stackWalk [t] = preOrder t ∧ (preOrder t).length = sizeG t := by
  constructor
  · have h1 : stackWalk [t] = preOrderList [t] :=
      stackWalk_eq_aux (sizeGs [t]) [t] (Nat.le_refl _)
    rw [h1]
    show preOrder t ++ preOrderList [] = preOrder t
    rw [show preOrderList [] = [] from rfl, List.append_nil]
  · cases t with
    | mk r c cs =>
      rw [preOrder, List.length_cons, sizeG]
      rw [preOrderList_length_aux (sizeGs cs) cs (Nat.le_refl _)]
      omega

/-- C9: the two routers are not equivalent — for a parent at `(1, 1)`
and a child at `(1, 7)`, `main.py` emits the cells of row 1 at columns 3
through 7 while `main1.py` emits only columns 4 through 7, so their
coordinate sets differ (at `(1, 3)`). -/
theorem routers_differ :
    (∀ c ∈ pyRange 3 8,
      calculate_connection_path (DataGrid.mk 1 1 []) (DataGrid.mk 1 7 []) (1, c) =
        some "horizontal") ∧
    calculate_connection_path (DataGrid.mk 1 1 []) (DataGrid.mk 1 7 []) (1, 3) =
      some "horizontal" ∧
    connection_path1 (DataGrid.mk 1 1 []) (DataGrid.mk 1 7 []) = [(1, 4), (1, 5), (1, 6), (1, 7)] ∧
    (1, 3) ∉ connection_path1 (DataGrid.mk 1 1 []) (DataGrid.mk 1 7 []) := by
  decide

/-- C10: `get_cell_data` returns the label `"{row}-{col}"` inside the
grid's rectangle and the empty string outside it. -/
theorem get_cell_data_spec (g : DataGrid) (row col : Int) :
    get_cell_data g row col =
      if g.start_row ≤ row ∧ row ≤ g.end_row ∧ g.start_col ≤ col ∧ col ≤ g.end_col
      then toString row ++ "-" ++ toString col else "" := by
  unfold get_cell_data
  rw [generate_cells_eval]
  by_cases h : g.start_row ≤ row ∧ row ≤ g.end_row ∧ g.start_col ≤ col ∧ col ≤ g.end_col
  · rw [if_pos h, if_pos h]
    rfl
  · rw [if_neg h, if_neg h]
    rfl
